import Mathlib

/-!
Shallow embedding of the auth-method reconciliation logic of
`internal/provider/resource_auth_method.go` (terraform-provider-boundary):
the attribute codec (encode of create/update options, decode of the remote
response map), the four lifecycle entry points, and the resource schema.

Remote interactions are modelled by passing the remote outcome as an explicit
argument; the list of remote calls each lifecycle function issues is returned
alongside its outcome, so "zero network calls" is the statement that this list
is empty.
-/

namespace AuthMethod

/-- Values appearing in the normalized remote response map
(`GetResponse().Map`, a decoded JSON object: `map[string]interface{}` whose
numbers arrive as `json.Number`). -/
inductive JVal where
  | s (v : String)
  | n (v : Int)
  | b (v : Bool)
  | arr (vs : List JVal)
  | obj (fields : List (String × JVal))
  | nullv
deriving Repr

/-- The raw response envelope map handed to `setFromAuthMethodResponseMap`. -/
def RawMap : Type := List (String × JVal)

/-- ASCII white space as recognized by Go's `unicode.IsSpace` on the code
points that occur in this codec: space, tab, newline, vertical tab, form
feed, carriage return. -/
def isSpaceChar (c : Char) : Bool :=
  c = ' ' || c = '\t' || c = '\n' || c = '\x0b' || c = '\x0c' || c = '\r'

/-- Go's `strings.TrimSpace`: drop white space from both ends of a string. -/
def trimSpace (s : String) : String :=
  ⟨List.rdropWhile isSpaceChar (List.dropWhile isSpaceChar s.data)⟩

-- Key constants from the source file.
def authmethodTypePassword : String := "password"
def authmethodMinLoginNameLengthKey : String := "min_login_name_length"
def authmethodMinPasswordLengthKey : String := "min_password_length"
def authmethodTypeOidc : String := "oidc"
def authmethodOidcStateKey : String := "state"
def authmethodOidcDiscoveryUrlKey : String := "discovery_url"
def authmethodOidcClientIdKey : String := "client_id"
def authmethodOidcClientSecretKey : String := "client_secret"
def authmethodOidcClientSecretHmacKey : String := "client_secret_hmac"
def authmethodOidcMaxAgeKey : String := "max_age"
def authmethodOidcSigningAlgorithmsKey : String := "signing_algorithms"
def authmethodOidcApiUrlPrefixKey : String := "api_url_prefix"
def authmethodOidcCallbackUrlKey : String := "callback_url"
def authmethodOidcAllowedAudiencesKey : String := "allowed_audiences"

/-- Modelled from the spec: shared key constants (`IDKey`, `NameKey`,
`DescriptionKey`, `ScopeIdKey`, `TypeKey`) are declared in a repository file
outside the provided sources; the spec's configuration surface names the
fields `name`, `description`, `scope_id`, `type` plus the server-assigned id. -/
def IDKey : String := "id"

def NameKey : String := "name"

def DescriptionKey : String := "description"

def ScopeIdKey : String := "scope_id"

def TypeKey : String := "type"

/-- Modelled from the spec: `authmethodOidcIssuerKey` is used by the source but
declared outside the provided sources; the spec names the field `issuer`. -/
def authmethodOidcIssuerKey : String := "issuer"

/-- Modelled from the spec: `authmethodOidcCaCertificatesKey` is used by the
source but declared outside the provided sources; the spec names the field
`caCertificates`. -/
def authmethodOidcCaCertificatesKey : String := "ca_certificates"

/-- Modelled from the spec: `authmethodOidcDisableDiscoveredConfigValidationKey`
is used by the source but declared outside the provided sources; the spec names
the field `disableDiscoveredConfigValidation`. -/
def authmethodOidcDisableDiscoveredConfigValidationKey : String :=
  "disable_discovered_config_validation"

/-- Errors of the decode step. `panicked` models a Go runtime panic raised by
an unchecked type assertion (`raw[k].(T)` with no `, ok`): the program crashes
rather than returning an error value. `invalidAuthMethodType` models the
`errorInvalidAuthMethodType` diagnostic returned on an unrecognized type tag. -/
inductive DecodeErr where
  | panicked
  | invalidAuthMethodType
deriving DecidableEq, Repr

/-- Go's `v.(string)` assertion on a map access: the string payload, or a
panic when the key is absent or holds another shape. -/
def assertStr (v : Option JVal) : Except DecodeErr String :=
  match v with
  | some (.s x) => .ok x
  | _ => .error .panicked

/-- Go's `v.(json.Number)` assertion followed by `Int64()` (whose error the
source discards). -/
def assertNum (v : Option JVal) : Except DecodeErr Int :=
  match v with
  | some (.n x) => .ok x
  | _ => .error .panicked

/-- The per-element `cert.(string)` assertions of the decode loops over a
`[]interface{}` value. -/
def strsOf : List JVal → Except DecodeErr (List String)
  | [] => .ok []
  | v :: rest =>
    match v with
    | .s x =>
      match strsOf rest with
      | .ok xs => .ok (x :: xs)
      | .error e => .error e
    | _ => .error .panicked

/-- Go's `v.([]interface{})` assertion followed by per-element `.(string)`. -/
def assertStrList (v : Option JVal) : Except DecodeErr (List String) :=
  match v with
  | some (.arr vs) => strsOf vs
  | _ => .error .panicked

/-- Local resource state as far as the decode step writes it: the identity
plus one field per schema key the source ever sets. Top-level fields are kept
as raw values (the source passes `raw[k]` straight to `d.Set`); typed fields
mirror the value shape the source stores. -/
structure AMState where
  id : String
  name : Option JVal
  description : Option JVal
  scopeId : Option JVal
  typ : Option JVal
  minLoginNameLength : Option Int
  minPasswordLength : Option Int
  oidcState : Option String
  oidcIssuer : Option String
  oidcClientId : Option String
  oidcClientSecretHmac : Option String
  oidcCaCerts : Option (List String)
  oidcAllowedAudiences : Option (List String)
  oidcMaxAge : Option Int
  oidcApiUrlPfx : Option String
  oidcCallbackUrl : Option String
  oidcDisableDiscoveredConfigValidation : Option String
  oidcSigningAlgorithms : Option (List JVal)
deriving Repr

/-- A fresh state with nothing set. -/
def emptyAMState : AMState :=
  ⟨"", none, none, none, none, none, none, none, none, none, none, none, none,
   none, none, none, none, none⟩

/-- The password branch of `setFromAuthMethodResponseMap`: both length fields
are read with unchecked `json.Number` assertions and stored. -/
def decodePasswordAttrs (s : AMState) (attrs : List (String × JVal)) :
    Except DecodeErr AMState :=
  match assertNum (List.lookup authmethodMinLoginNameLengthKey attrs) with
  | .error e => .error e
  | .ok n1 =>
    match assertNum (List.lookup authmethodMinPasswordLengthKey attrs) with
    | .error e => .error e
    | .ok n2 =>
      .ok { s with minLoginNameLength := some n1, minPasswordLength := some n2 }

/-- One conditionally-present string field of the OIDC response: decoded (with
an unchecked `.(string)` assertion) only if the key exists, otherwise the
previous value is kept. -/
def decodeOptStrField (cur : Option String) (v : Option JVal) :
    Except DecodeErr (Option String) :=
  match v with
  | none => .ok cur
  | some w =>
    match w with
    | .s x => .ok (some x)
    | _ => .error .panicked

/-- The `sometimesString` loop of the OIDC decode branch, in source order:
`api_url_prefix`, `callback_url`, `disable_discovered_config_validation`. -/
def decodeOidcSometimes (s : AMState) (attrs : List (String × JVal)) :
    Except DecodeErr AMState :=
  match decodeOptStrField s.oidcApiUrlPfx
      (List.lookup authmethodOidcApiUrlPrefixKey attrs) with
  | .error e => .error e
  | .ok a =>
    match decodeOptStrField s.oidcCallbackUrl
        (List.lookup authmethodOidcCallbackUrlKey attrs) with
    | .error e => .error e
    | .ok c =>
      match decodeOptStrField s.oidcDisableDiscoveredConfigValidation
          (List.lookup authmethodOidcDisableDiscoveredConfigValidationKey attrs) with
      | .error e => .error e
      | .ok dd =>
        .ok { s with oidcApiUrlPfx := a, oidcCallbackUrl := c,
                     oidcDisableDiscoveredConfigValidation := dd }

/-- The OIDC branch of `setFromAuthMethodResponseMap`: the always-set string
fields, the two whitespace-trimmed list fields, `max_age`, the
sometimes-present string fields, and the raw signing-algorithm list. -/
def decodeOidcAttrs (s : AMState) (attrs : List (String × JVal)) :
    Except DecodeErr AMState :=
  match assertStr (List.lookup authmethodOidcStateKey attrs) with
  | .error e => .error e
  | .ok st =>
    match assertStr (List.lookup authmethodOidcIssuerKey attrs) with
    | .error e => .error e
    | .ok iss =>
      match assertStr (List.lookup authmethodOidcClientIdKey attrs) with
      | .error e => .error e
      | .ok cid =>
        match assertStr (List.lookup authmethodOidcClientSecretHmacKey attrs) with
        | .error e => .error e
        | .ok hmac =>
          match assertStrList (List.lookup authmethodOidcCaCertificatesKey attrs) with
          | .error e => .error e
          | .ok certs =>
            match assertStrList (List.lookup authmethodOidcAllowedAudiencesKey attrs) with
            | .error e => .error e
            | .ok auds =>
              match assertNum (List.lookup authmethodOidcMaxAgeKey attrs) with
              | .error e => .error e
              | .ok ma =>
                match decodeOidcSometimes
                    { s with oidcState := some st, oidcIssuer := some iss,
                             oidcClientId := some cid,
                             oidcClientSecretHmac := some hmac,
                             oidcCaCerts := some (certs.map trimSpace),
                             oidcAllowedAudiences := some (auds.map trimSpace),
                             oidcMaxAge := some ma } attrs with
                | .error e => .error e
                | .ok s1 =>
                  match List.lookup authmethodOidcSigningAlgorithmsKey attrs with
                  | none => .ok s1
                  | some v =>
                    match v with
                    | .arr vs => .ok { s1 with oidcSigningAlgorithms := some vs }
                    | _ => .error .panicked

/-- The decode step `setFromAuthMethodResponseMap`: stores the four top-level
fields, switches on the (string-asserted) type tag, decodes the variant
attribute bundle when `attributes` is present, and finally stores the
(string-asserted) id. Unknown type tags yield `invalidAuthMethodType`; every
shape mismatch of a required field is an unchecked assertion, i.e. a panic. -/
def setFromAuthMethodResponseMap (s0 : AMState) (raw : RawMap) :
    Except DecodeErr AMState :=
  let s := { s0 with name := List.lookup NameKey raw,
                     description := List.lookup DescriptionKey raw,
                     scopeId := List.lookup ScopeIdKey raw,
                     typ := List.lookup TypeKey raw }
  match assertStr (List.lookup TypeKey raw) with
  | .error e => .error e
  | .ok t =>
    let branch : Except DecodeErr AMState :=
      if t = authmethodTypePassword then
        match List.lookup "attributes" raw with
        | none => .ok s
        | some av =>
          match av with
          | .obj attrs => decodePasswordAttrs s attrs
          | _ => .error .panicked
      else if t = authmethodTypeOidc then
        match List.lookup "attributes" raw with
        | none => .ok s
        | some av =>
          match av with
          | .obj attrs => decodeOidcAttrs s attrs
          | _ => .error .panicked
      else .error .invalidAuthMethodType
    match branch with
    | .error e => .error e
    | .ok s1 =>
      match assertStr (List.lookup IDKey raw) with
      | .error e => .error e
      | .ok idv => .ok { s1 with id := idv }

/-- The `authmethods.Option` values the source appends to its requests, one
constructor per option constructor the source calls. -/
inductive AMOption where
  | withName (s : String)
  | defaultName
  | withDescription (s : String)
  | defaultDescription
  | withPasswordAuthMethodMinLoginNameLength (n : Nat)
  | defaultPasswordAuthMethodMinLoginNameLength
  | withPasswordAuthMethodMinPasswordLength (n : Nat)
  | defaultPasswordAuthMethodMinPasswordLength
  | withOidcAuthMethodIssuer (s : String)
  | withOidcAuthMethodClientId (s : String)
  | withOidcAuthMethodClientSecret (s : String)
  | withOidcAuthMethodMaxAge (n : Nat)
  | withOidcAuthMethodSigningAlgorithms (l : List String)
  | withOidcAuthMethodApiUrlPfx (s : String)
  | withOidcAuthMethodAllowedAudiences (l : List String)
  | withOidcAuthMethodIdpCaCerts (l : List String)
  | withOidcAuthMethodDisableDiscoveredConfigValidation (v : Bool)
  | withAutomaticVersioning (v : Bool)
deriving DecidableEq, Repr

/-- A `d.GetOk` followed by a conditional append of one option: one option
when the field is present (and non-zero), nothing otherwise. -/
def optIfSet {α : Type} (v : Option α) (mk : α → AMOption) : List AMOption :=
  match v with
  | some x => [mk x]
  | none => []

/-- Desired configuration as `resourceAuthMethodCreate` reads it through
`d.GetOk`: `none` is an absent (or zero-valued) field. -/
structure CreateData where
  typ : Option String
  scopeId : Option String
  name : Option String
  description : Option String
  minLoginNameLength : Option Nat
  minPasswordLength : Option Nat
  issuer : Option String
  clientId : Option String
  clientSecret : Option String
  maxAge : Option Nat
  apiUrlPfx : Option String
  caCerts : Option (List String)
  allowedAudiences : Option (List String)
  disableDiscoveredConfigValidation : Option Bool
  signingAlgorithms : Option (List String)
deriving DecidableEq, Repr

/-- A configuration with no field set. -/
def emptyCreateData : CreateData :=
  ⟨none, none, none, none, none, none, none, none, none, none, none, none,
   none, none, none⟩

/-- Create-time password options, in source order: the two optional length
fields. -/
def createPasswordOpts (d : CreateData) : List AMOption :=
  optIfSet d.minLoginNameLength .withPasswordAuthMethodMinLoginNameLength
    ++ optIfSet d.minPasswordLength .withPasswordAuthMethodMinPasswordLength

/-- Create-time OIDC options, in source order. Certificate elements are
whitespace-trimmed before emission; audience elements are passed through. -/
def createOidcOpts (d : CreateData) : List AMOption :=
  optIfSet d.issuer .withOidcAuthMethodIssuer
    ++ optIfSet d.clientId .withOidcAuthMethodClientId
    ++ optIfSet d.clientSecret .withOidcAuthMethodClientSecret
    ++ optIfSet d.maxAge .withOidcAuthMethodMaxAge
    ++ optIfSet d.apiUrlPfx .withOidcAuthMethodApiUrlPfx
    ++ optIfSet (d.caCerts.map (List.map trimSpace)) .withOidcAuthMethodIdpCaCerts
    ++ optIfSet d.allowedAudiences .withOidcAuthMethodAllowedAudiences
    ++ optIfSet d.disableDiscoveredConfigValidation
        .withOidcAuthMethodDisableDiscoveredConfigValidation
    ++ optIfSet d.signingAlgorithms .withOidcAuthMethodSigningAlgorithms

/-- The variant switch of `resourceAuthMethodCreate`: `none` models the
`errorInvalidAuthMethodType` default branch. -/
def createVariantOpts (d : CreateData) (t : String) : Option (List AMOption) :=
  if t = authmethodTypePassword then some (createPasswordOpts d)
  else if t = authmethodTypeOidc then some (createOidcOpts d)
  else none

/-- One remote create call: the positional type and scope arguments plus the
option list. -/
structure CreateCall where
  typeStr : String
  scopeId : String
  opts : List AMOption
deriving DecidableEq, Repr

/-- Outcome of the remote create call the model is run against. -/
inductive CreateRemote where
  | ok (raw : RawMap)
  | nilResp
  | fail (msg : String)

/-- Outcome of `resourceAuthMethodCreate`. `errNoType` and `errNoScope` are
the "no type provided" / "no scope ID provided" diagnostics (the spec's
`MissingRequiredField`); `invalidAuthMethodType` is the unknown-variant
diagnostic; `nilAuthMethod` is the nil-response guard. -/
inductive CreateOutcome where
  | errNoType
  | errNoScope
  | invalidAuthMethodType
  | remoteErr (msg : String)
  | nilAuthMethod
  | decodeFail (e : DecodeErr)
  | ok (s : AMState)

/-- `resourceAuthMethodCreate`: type guard, variant encode, name/description,
scope guard, then exactly one remote create whose response is decoded into
the local state. The returned list collects every remote call issued. -/
def resourceAuthMethodCreate (d : CreateData) (s0 : AMState)
    (remote : CreateRemote) : List CreateCall × CreateOutcome :=
  match d.typ with
  | none => ([], .errNoType)
  | some typeStr =>
    match createVariantOpts d typeStr with
    | none => ([], .invalidAuthMethodType)
    | some varOpts =>
      let opts := varOpts ++ optIfSet d.name .withName
        ++ optIfSet d.description .withDescription
      match d.scopeId with
      | none => ([], .errNoScope)
      | some sid =>
        let call : CreateCall := ⟨typeStr, sid, opts⟩
        match remote with
        | .fail msg => ([call], .remoteErr ("error creating auth method: " ++ msg))
        | .nilResp => ([call], .nilAuthMethod)
        | .ok raw =>
          match setFromAuthMethodResponseMap s0 raw with
          | .error e => ([call], .decodeFail e)
          | .ok s1 => ([call], .ok s1)

/-- Outcome of the remote read call: a response map, a nil result, or an API
error carrying its HTTP status code. -/
inductive ReadRemote where
  | ok (raw : RawMap)
  | nilResp
  | fail (status : Nat) (msg : String)

/-- Outcome of `resourceAuthMethodRead`. `absent` is the non-error outcome in
which the local identity has been cleared (`d.SetId("")`). -/
inductive ReadOutcome where
  | absent (s : AMState)
  | failed (msg : String)
  | decodeFail (e : DecodeErr)
  | ok (s : AMState)

/-- `resourceAuthMethodRead`: a 404 from the remote clears the id and
succeeds; any other remote failure, a nil response, or a decode failure is an
error. -/
def resourceAuthMethodRead (s : AMState) (r : ReadRemote) : ReadOutcome :=
  match r with
  | .fail status msg =>
    if status = 404 then .absent { s with id := "" }
    else .failed ("error reading auth method: " ++ msg)
  | .nilResp => .failed "auth method nil after read"
  | .ok raw =>
    match setFromAuthMethodResponseMap s raw with
    | .error e => .decodeFail e
    | .ok s1 => .ok s1

/-- Modelled from the spec: the remote gateway adapter (the external
auth-method client wrapper, not among the provided sources) normalizes a
structured 404 from the service into a non-error sentinel outcome
(`notFoundSignal`); only other failures come back as a Go error value. -/
inductive DeleteRemote where
  | deleted
  | notFoundSignal
  | fail (msg : String)
deriving DecidableEq, Repr

/-- The error value `amClient.Delete` hands back for a given remote outcome
under the spec-modelled adapter: `none` (no error) for both an actual delete
and the not-found sentinel. -/
def deleteClientErr : DeleteRemote → Option String
  | .fail msg => some msg
  | _ => none

/-- `resourceAuthMethodDelete`: issue the remote delete and surface its error,
if any, as a diagnostic; otherwise succeed. -/
def resourceAuthMethodDelete (r : DeleteRemote) : Except String Unit :=
  match deleteClientErr r with
  | some msg => .error ("error deleting auth method: " ++ msg)
  | none => .ok ()

/-- One field of the diffable resource state at update time: the previous
(`old`) and desired (`new`) value, `none` standing for unset (or zero, which
`d.GetOk` treats the same). -/
structure Fld (α : Type) where
  old : Option α
  new : Option α
deriving DecidableEq, Repr

/-- `d.HasChange k`: the previous and desired values differ. -/
def hasChange {α : Type} [DecidableEq α] (f : Fld α) : Bool :=
  decide (f.old ≠ f.new)

/-- Resource state as `resourceAuthMethodUpdate` reads it, one diffable field
per key the function touches (`scopeId` is carried even though the function
never examines it). -/
structure UpdateData where
  id : String
  name : Fld String
  description : Fld String
  scopeId : Fld String
  typ : Fld String
  minLoginNameLength : Fld Nat
  minPasswordLength : Fld Nat
  issuer : Fld String
  clientId : Fld String
  clientSecret : Fld String
  clientSecretHmac : Fld String
  maxAge : Fld Nat
  signingAlgorithms : Fld (List String)
  apiUrlPfx : Fld String
  allowedAudiences : Fld (List String)
  caCerts : Fld (List String)
  disableDiscoveredConfigValidation : Fld Bool
deriving DecidableEq, Repr

/-- Name and description options of the update diff: on a change, a
reset-to-default marker always, plus a set option when the desired value is
present. -/
def updateCommonOpts (d : UpdateData) : List AMOption :=
  (if hasChange d.name then
    AMOption.defaultName :: optIfSet d.name.new .withName
   else [])
  ++ (if hasChange d.description then
    AMOption.defaultDescription :: optIfSet d.description.new .withDescription
   else [])

/-- Password-variant options of the update diff: same reset-plus-set pattern
for the two length fields. -/
def updatePasswordOpts (d : UpdateData) : List AMOption :=
  (if hasChange d.minLoginNameLength then
    AMOption.defaultPasswordAuthMethodMinLoginNameLength ::
      optIfSet d.minLoginNameLength.new .withPasswordAuthMethodMinLoginNameLength
   else [])
  ++ (if hasChange d.minPasswordLength then
    AMOption.defaultPasswordAuthMethodMinPasswordLength ::
      optIfSet d.minPasswordLength.new .withPasswordAuthMethodMinPasswordLength
   else [])

/-- OIDC-variant options of the update diff, in source order: every branch is
a bare "set when present" with no reset-to-default marker; a changed
`client_secret_hmac` is sent through the client-secret option; certificate
elements are whitespace-trimmed. -/
def updateOidcOpts (d : UpdateData) : List AMOption :=
  (if hasChange d.issuer then optIfSet d.issuer.new .withOidcAuthMethodIssuer else [])
  ++ (if hasChange d.clientId then
      optIfSet d.clientId.new .withOidcAuthMethodClientId else [])
  ++ (if hasChange d.clientSecret then
      optIfSet d.clientSecret.new .withOidcAuthMethodClientSecret else [])
  ++ (if hasChange d.maxAge then
      optIfSet d.maxAge.new .withOidcAuthMethodMaxAge else [])
  ++ (if hasChange d.signingAlgorithms then
      optIfSet d.signingAlgorithms.new .withOidcAuthMethodSigningAlgorithms else [])
  ++ (if hasChange d.apiUrlPfx then
      optIfSet d.apiUrlPfx.new .withOidcAuthMethodApiUrlPfx else [])
  ++ (if hasChange d.clientSecretHmac then
      optIfSet d.clientSecretHmac.new .withOidcAuthMethodClientSecret else [])
  ++ (if hasChange d.allowedAudiences then
      optIfSet d.allowedAudiences.new .withOidcAuthMethodAllowedAudiences else [])
  ++ (if hasChange d.caCerts then
      optIfSet (d.caCerts.new.map (List.map trimSpace)) .withOidcAuthMethodIdpCaCerts
     else [])
  ++ (if hasChange d.disableDiscoveredConfigValidation then
      optIfSet d.disableDiscoveredConfigValidation.new
        .withOidcAuthMethodDisableDiscoveredConfigValidation
     else [])

/-- The full update option list before the versioning marker, or `none` for
the `errorInvalidAuthMethodType` default branch of the type switch
(`d.Get(TypeKey)` yields the desired value, the empty string when unset). -/
def updateOpts (d : UpdateData) : Option (List AMOption) :=
  let common := updateCommonOpts d
  let t := d.typ.new.getD ""
  if t = authmethodTypePassword then some (common ++ updatePasswordOpts d)
  else if t = authmethodTypeOidc then some (common ++ updateOidcOpts d)
  else none

/-- One remote update call: id, the positional version argument, and the
option list. -/
structure UpdateCall where
  amId : String
  version : Nat
  opts : List AMOption
deriving DecidableEq, Repr

/-- Stand-ins for the four identifiers (`name`, `desc`, `minLoginNameLength`,
`minPasswordLength`) that the source's final state-assignment block reads but
never defines — the block does not compile as written (the spec flags this as
a latent defect); the model makes their values an explicit input. -/
structure UndefVars where
  name : String
  desc : String
  minLoginNameLength : Nat
  minPasswordLength : Nat
deriving DecidableEq, Repr

/-- An `UndefVars` valuation for concrete runs. -/
def uv0 : UndefVars := ⟨"", "", 0, 0⟩

/-- Store a value into a field, as `d.Set` does. -/
def setNew {α : Type} (f : Fld α) (v : α) : Fld α :=
  { f with new := some v }

/-- The final state-assignment block of `resourceAuthMethodUpdate`: for each
of the four keys, re-set the field when it changed, from the corresponding
undefined identifier. -/
def applyPostUpdateSets (d : UpdateData) (uv : UndefVars) : UpdateData :=
  let d1 := if hasChange d.name then { d with name := setNew d.name uv.name } else d
  let d2 := if hasChange d1.description then
      { d1 with description := setNew d1.description uv.desc } else d1
  let d3 := if hasChange d2.minLoginNameLength then
      { d2 with minLoginNameLength := setNew d2.minLoginNameLength uv.minLoginNameLength }
    else d2
  let d4 := if hasChange d3.minPasswordLength then
      { d3 with minPasswordLength := setNew d3.minPasswordLength uv.minPasswordLength }
    else d3
  d4

/-- Outcome of `resourceAuthMethodUpdate`. -/
inductive UpdateOutcome where
  | invalidAuthMethodType
  | remoteErr (msg : String)
  | ok (d : UpdateData)
deriving DecidableEq, Repr

/-- `resourceAuthMethodUpdate`: build the per-field diff options; on an
unknown desired type, fail; with a non-empty option list, append the
automatic-versioning marker and issue one remote update (version argument 0);
then run the final state-assignment block and succeed. `remote` is the error,
if any, of the remote update; the returned list collects every remote call
issued. (The source block's braces around `len(opts) > 0` are inconsistent
with its indentation; the indentation-intended structure is modelled.) -/
def resourceAuthMethodUpdate (d : UpdateData) (uv : UndefVars)
    (remote : Option String) : List UpdateCall × UpdateOutcome :=
  match updateOpts d with
  | none => ([], .invalidAuthMethodType)
  | some opts =>
    if opts.isEmpty then ([], .ok (applyPostUpdateSets d uv))
    else
      let call : UpdateCall := ⟨d.id, 0, opts ++ [.withAutomaticVersioning true]⟩
      match remote with
      | some msg => ([call], .remoteErr ("error updating auth method: " ++ msg))
      | none => ([call], .ok (applyPostUpdateSets d uv))

/-- One top-level field of the resource schema, with the flags the source
declares. -/
structure SchemaFieldSpec where
  key : String
  required : Bool
  optionalFlag : Bool
  computedFlag : Bool
  forceNew : Bool
deriving DecidableEq, Repr

/-- The top-level schema of `resourceAuthMethod`: id (computed), name and
description (optional), scope id and type (required, ForceNew), and the two
variant blocks. -/
def resourceAuthMethodSchema : List SchemaFieldSpec :=
  [⟨IDKey, false, false, true, false⟩,
   ⟨NameKey, false, true, false, false⟩,
   ⟨DescriptionKey, false, true, false, false⟩,
   ⟨ScopeIdKey, true, false, false, true⟩,
   ⟨TypeKey, true, false, false, true⟩,
   ⟨authmethodTypePassword, false, false, false, false⟩,
   ⟨authmethodTypeOidc, false, false, false, false⟩]

/-- The ForceNew flag the schema declares for a key, when the key exists. -/
def schemaForceNew (k : String) : Option Bool :=
  (resourceAuthMethodSchema.find? (fun f => f.key = k)).map (fun f => f.forceNew)

/-- Every mutable (diffed) field agrees between previous and desired state;
`scopeId` and `typ` are not constrained. -/
def mutableUnchanged (d : UpdateData) : Prop :=
  d.name.old = d.name.new ∧ d.description.old = d.description.new ∧
  d.minLoginNameLength.old = d.minLoginNameLength.new ∧
  d.minPasswordLength.old = d.minPasswordLength.new ∧
  d.issuer.old = d.issuer.new ∧ d.clientId.old = d.clientId.new ∧
  d.clientSecret.old = d.clientSecret.new ∧
  d.clientSecretHmac.old = d.clientSecretHmac.new ∧
  d.maxAge.old = d.maxAge.new ∧
  d.signingAlgorithms.old = d.signingAlgorithms.new ∧
  d.apiUrlPfx.old = d.apiUrlPfx.new ∧
  d.allowedAudiences.old = d.allowedAudiences.new ∧
  d.caCerts.old = d.caCerts.new ∧
  d.disableDiscoveredConfigValidation.old = d.disableDiscoveredConfigValidation.new

/-- No field at all differs between previous and desired state. -/
def allUnchanged (d : UpdateData) : Prop :=
  mutableUnchanged d ∧ d.scopeId.old = d.scopeId.new ∧ d.typ.old = d.typ.new

/-- A fully-unchanged password-type record for the C1 witness. -/
def c1d : UpdateData :=
  { id := "ampw_1", name := ⟨some "n", some "n"⟩, description := ⟨none, none⟩,
    scopeId := ⟨some "global", some "global"⟩,
    typ := ⟨some "password", some "password"⟩,
    minLoginNameLength := ⟨some 3, some 3⟩, minPasswordLength := ⟨some 8, some 8⟩,
    issuer := ⟨none, none⟩, clientId := ⟨none, none⟩, clientSecret := ⟨none, none⟩,
    clientSecretHmac := ⟨none, none⟩, maxAge := ⟨none, none⟩,
    signingAlgorithms := ⟨none, none⟩, apiUrlPfx := ⟨none, none⟩,
    allowedAudiences := ⟨none, none⟩, caCerts := ⟨none, none⟩,
    disableDiscoveredConfigValidation := ⟨none, none⟩ }

/-- A record whose previous and desired state differ only on the scope id. -/
def c2d : UpdateData :=
  { id := "ampw_2", name := ⟨none, none⟩, description := ⟨none, none⟩,
    scopeId := ⟨some "global", some "o_1234567890"⟩,
    typ := ⟨some "password", some "password"⟩,
    minLoginNameLength := ⟨none, none⟩, minPasswordLength := ⟨none, none⟩,
    issuer := ⟨none, none⟩, clientId := ⟨none, none⟩, clientSecret := ⟨none, none⟩,
    clientSecretHmac := ⟨none, none⟩, maxAge := ⟨none, none⟩,
    signingAlgorithms := ⟨none, none⟩, apiUrlPfx := ⟨none, none⟩,
    allowedAudiences := ⟨none, none⟩, caCerts := ⟨none, none⟩,
    disableDiscoveredConfigValidation := ⟨none, none⟩ }

/-- A record whose name changed, for the C5 witness. -/
def c5d : UpdateData :=
  { c2d with scopeId := ⟨some "global", some "global"⟩,
             name := ⟨none, some "new-name"⟩ }

/-- An OIDC record whose only difference is `max_age` going from an explicit
value to unset. -/
def c9d : UpdateData :=
  { c2d with id := "amoidc_9", scopeId := ⟨some "global", some "global"⟩,
             typ := ⟨some "oidc", some "oidc"⟩,
             maxAge := ⟨some 3600, none⟩ }

/-- True exactly for the four reset-to-default option constructors the source
ever emits. -/
def isResetOpt : AMOption → Bool
  | .defaultName => true
  | .defaultDescription => true
  | .defaultPasswordAuthMethodMinLoginNameLength => true
  | .defaultPasswordAuthMethodMinPasswordLength => true
  | _ => false

/-- A record with name and minimum login name length changed, for the C9
amended witness. -/
def c9w : UpdateData :=
  { c2d with id := "ampw_9w", scopeId := ⟨some "global", some "global"⟩,
             name := ⟨some "a", some "b"⟩,
             minLoginNameLength := ⟨some 3, some 5⟩ }

/-- An OIDC record whose client secret HMAC changed, for the C10 witness. -/
def c10d : UpdateData :=
  { c2d with id := "amoidc_10", scopeId := ⟨some "global", some "global"⟩,
             typ := ⟨some "oidc", some "oidc"⟩,
             clientSecretHmac := ⟨some "oldhmac", some "newhmac"⟩ }

/-- The integer payload of a raw value, when it has one. -/
def toNumOpt : JVal → Option Int
  | .n x => some x
  | _ => none

/-- The string payload of a raw value, when it has one. -/
def toStrOpt : JVal → Option String
  | .s x => some x
  | _ => none

/-- A well-formed OIDC response map, with every always-present attribute and
nothing else: a fixture for the decode theorems. -/
def mkOidcRaw (nm ds sc : JVal) (st iss cid hmac : String)
    (certs auds : List String) (ma : Int) (idv : String) : RawMap :=
  [(NameKey, nm), (DescriptionKey, ds), (ScopeIdKey, sc),
   (TypeKey, .s authmethodTypeOidc),
   ("attributes", .obj
     [(authmethodOidcStateKey, .s st),
      (authmethodOidcIssuerKey, .s iss),
      (authmethodOidcClientIdKey, .s cid),
      (authmethodOidcClientSecretHmacKey, .s hmac),
      (authmethodOidcCaCertificatesKey, .arr (certs.map JVal.s)),
      (authmethodOidcAllowedAudiencesKey, .arr (auds.map JVal.s)),
      (authmethodOidcMaxAgeKey, .n ma)]),
   (IDKey, .s idv)]

theorem hasChange_false {α : Type} [DecidableEq α] (f : Fld α)
    (h : f.old = f.new) : hasChange f = false := by
  simp [hasChange, h]

theorem updateNoopAux (d : UpdateData) (uv : UndefVars) (r : Option String)
    (hm : mutableUnchanged d)
    (ht : d.typ.new.getD "" = authmethodTypePassword
        ∨ d.typ.new.getD "" = authmethodTypeOidc) :
    resourceAuthMethodUpdate d uv r = ([], .ok d) := by
  obtain ⟨h1, h2, h3, h4, h5, h6, h7, h8, h9, h10, h11, h12, h13, h14⟩ := hm
  have hco : updateCommonOpts d = [] := by
    simp [updateCommonOpts, hasChange_false _ h1, hasChange_false _ h2]
  have hpo : updatePasswordOpts d = [] := by
    simp [updatePasswordOpts, hasChange_false _ h3, hasChange_false _ h4]
  have hoo : updateOidcOpts d = [] := by
    simp [updateOidcOpts, hasChange_false _ h5, hasChange_false _ h6,
      hasChange_false _ h7, hasChange_false _ h8, hasChange_false _ h9,
      hasChange_false _ h10, hasChange_false _ h11, hasChange_false _ h12,
      hasChange_false _ h13, hasChange_false _ h14]
  have hset : applyPostUpdateSets d uv = d := by
    simp [applyPostUpdateSets, hasChange_false _ h1, hasChange_false _ h2,
      hasChange_false _ h3, hasChange_false _ h4]
  have hopts : updateOpts d = some [] := by
    rcases ht with ht | ht <;>
      simp [updateOpts, ht, hco, hpo, hoo, authmethodTypePassword, authmethodTypeOidc]
  simp [resourceAuthMethodUpdate, hopts, hset]

/-- C1: when no field differs between previous and desired state (so the
computed option list is empty), `resourceAuthMethodUpdate` issues zero remote
calls and returns the previous state unchanged, with no error. The stored
type must be one of the two valid variants, as every created record's is. -/
theorem update_unchanged_is_noop (d : UpdateData) (uv : UndefVars)
    (r : Option String) (hall : allUnchanged d)
    (ht : d.typ.new.getD "" = authmethodTypePassword
        ∨ d.typ.new.getD "" = authmethodTypeOidc) :
    resourceAuthMethodUpdate d uv r = ([], .ok d) :=
  updateNoopAux d uv r hall.1 ht

/-- C1 witness: the no-op theorem applied at a concrete unchanged record. -/
theorem update_unchanged_is_noop_witness :
    resourceAuthMethodUpdate c1d uv0 none = ([], .ok c1d) :=
  update_unchanged_is_noop c1d uv0 none
    ⟨⟨rfl, rfl, rfl, rfl, rfl, rfl, rfl, rfl, rfl, rfl, rfl, rfl, rfl, rfl⟩,
     rfl, rfl⟩
    (Or.inl rfl)

/-- C3: a remote delete whose outcome is the not-found sentinel produces no
error from `resourceAuthMethodDelete` — delete is a success on an
already-absent id. -/
theorem delete_notfound_is_success :
    resourceAuthMethodDelete DeleteRemote.notFoundSignal = .ok () := rfl

/-- C4: a remote read failure carrying HTTP status 404 makes
`resourceAuthMethodRead` clear the local identity and succeed (the `absent`
outcome, not an error); a remote read failure with any other status is
surfaced as an error diagnostic. -/
theorem read_notfound_absorbed (s : AMState) (status : Nat) (msg : String) :
    (status = 404 →
      resourceAuthMethodRead s (.fail status msg) = .absent { s with id := "" })
    ∧ (status ≠ 404 →
      resourceAuthMethodRead s (.fail status msg)
        = .failed ("error reading auth method: " ++ msg)) :=
  ⟨fun h => by simp [resourceAuthMethodRead, h],
   fun h => by simp [resourceAuthMethodRead, h]⟩

/-- C4 witness: the 404 branch and a 500 branch at concrete inputs. -/
theorem read_notfound_absorbed_witness :
    resourceAuthMethodRead emptyAMState (.fail 404 "not found")
      = .absent { emptyAMState with id := "" }
    ∧ resourceAuthMethodRead emptyAMState (.fail 500 "boom")
      = .failed "error reading auth method: boom" :=
  ⟨(read_notfound_absorbed emptyAMState 404 "not found").1 rfl,
   (read_notfound_absorbed emptyAMState 500 "boom").2 (by decide)⟩

/-- C6: `resourceAuthMethodCreate` fails fast with zero remote calls — with
the "no type provided" diagnostic when the type is absent, with the
invalid-auth-method-type diagnostic when the type is outside
{password, oidc}, and with the "no scope ID provided" diagnostic when the
type is valid but the scope id is absent. -/
theorem create_fails_fast_before_remote_call (d : CreateData) (s0 : AMState)
    (r : CreateRemote) :
    (d.typ = none → resourceAuthMethodCreate d s0 r = ([], .errNoType))
    ∧ (∀ t, d.typ = some t → t ≠ authmethodTypePassword →
        t ≠ authmethodTypeOidc →
        resourceAuthMethodCreate d s0 r = ([], .invalidAuthMethodType))
    ∧ (∀ t, d.typ = some t →
        (t = authmethodTypePassword ∨ t = authmethodTypeOidc) →
        d.scopeId = none →
        resourceAuthMethodCreate d s0 r = ([], .errNoScope)) := by
  refine ⟨fun h => by simp [resourceAuthMethodCreate, h],
    fun t ht h1 h2 => ?_, fun t ht hv hs => ?_⟩
  · simp [resourceAuthMethodCreate, ht, createVariantOpts, h1, h2]
  · rcases hv with hv | hv <;> subst hv <;>
      simp [resourceAuthMethodCreate, ht, createVariantOpts, hs,
        authmethodTypePassword, authmethodTypeOidc]

/-- C6 witness: the three fail-fast branches at concrete configurations. -/
theorem create_fails_fast_before_remote_call_witness :
    resourceAuthMethodCreate emptyCreateData emptyAMState .nilResp
      = ([], .errNoType)
    ∧ resourceAuthMethodCreate { emptyCreateData with typ := some "ldap" }
        emptyAMState .nilResp = ([], .invalidAuthMethodType)
    ∧ resourceAuthMethodCreate { emptyCreateData with typ := some "password" }
        emptyAMState .nilResp = ([], .errNoScope) :=
  ⟨(create_fails_fast_before_remote_call emptyCreateData emptyAMState .nilResp).1 rfl,
   (create_fails_fast_before_remote_call { emptyCreateData with typ := some "ldap" }
     emptyAMState .nilResp).2.1 "ldap" rfl (by decide) (by decide),
   (create_fails_fast_before_remote_call { emptyCreateData with typ := some "password" }
     emptyAMState .nilResp).2.2 "password" rfl (Or.inl rfl) rfl⟩

/-- C2 counterexample: on a record whose scope id changed,
`resourceAuthMethodUpdate` does NOT fail with any immutable-field error — it
issues zero remote calls and returns success with the state unchanged. The
claimed `ImmutableFieldChanged` rejection does not exist in the update path. -/
theorem update_immutable_change_not_rejected :
    hasChange c2d.scopeId = true
    ∧ resourceAuthMethodUpdate c2d uv0 none = ([], .ok c2d) := ⟨rfl, rfl⟩

/-- C2 amended: `resourceAuthMethodUpdate` never examines `scopeId` or the
previous type — when only those fields differ (and the desired type is a
valid variant) it issues zero remote calls and succeeds with the state
unchanged, silently ignoring the change; immutability of `scope_id` and
`type` is instead declared through the schema's ForceNew flags, so the host
harness replaces the resource rather than updating it. -/
theorem update_ignores_immutable_fields (d : UpdateData) (uv : UndefVars)
    (r : Option String) (hm : mutableUnchanged d)
    (ht : d.typ.new.getD "" = authmethodTypePassword
        ∨ d.typ.new.getD "" = authmethodTypeOidc) :
    resourceAuthMethodUpdate d uv r = ([], .ok d)
    ∧ schemaForceNew ScopeIdKey = some true
    ∧ schemaForceNew TypeKey = some true :=
  ⟨updateNoopAux d uv r hm ht, rfl, rfl⟩

/-- C2 amended witness: the amended theorem at the concrete scope-changed
record. -/
theorem update_ignores_immutable_fields_witness :
    resourceAuthMethodUpdate c2d uv0 none = ([], .ok c2d)
    ∧ schemaForceNew ScopeIdKey = some true
    ∧ schemaForceNew TypeKey = some true :=
  update_ignores_immutable_fields c2d uv0 none
    ⟨rfl, rfl, rfl, rfl, rfl, rfl, rfl, rfl, rfl, rfl, rfl, rfl, rfl, rfl⟩
    (Or.inl rfl)

/-- C5: every remote call `resourceAuthMethodUpdate` issues carries the
positional version argument 0 (never a cached version number) and the
automatic-versioning marker among its options. -/
theorem update_uses_automatic_versioning (d : UpdateData) (uv : UndefVars)
    (r : Option String) (c : UpdateCall)
    (hc : c ∈ (resourceAuthMethodUpdate d uv r).1) :
    c.version = 0 ∧ AMOption.withAutomaticVersioning true ∈ c.opts := by
  unfold resourceAuthMethodUpdate at hc
  split at hc
  · simp at hc
  · split at hc
    · simp at hc
    · split at hc
      · simp at hc
        subst hc
        exact ⟨rfl, by simp⟩
      · simp at hc
        subst hc
        exact ⟨rfl, by simp⟩

/-- C5 witness: the versioning theorem at the concrete call the name-changed
record produces. -/
theorem update_uses_automatic_versioning_witness :
    (⟨"ampw_2", 0, [.defaultName, .withName "new-name",
        .withAutomaticVersioning true]⟩ : UpdateCall).version = 0
    ∧ AMOption.withAutomaticVersioning true
        ∈ (⟨"ampw_2", 0, [.defaultName, .withName "new-name",
            .withAutomaticVersioning true]⟩ : UpdateCall).opts :=
  update_uses_automatic_versioning c5d uv0 none
    ⟨"ampw_2", 0, [.defaultName, .withName "new-name",
      .withAutomaticVersioning true]⟩ (by decide)

/-- C9 counterexample: `max_age` changed by becoming unset, yet the emitted
update carries no option at all for it — no reset-to-default marker exists in
the OIDC branch, and with no other change the whole update issues zero remote
calls and returns unchanged. -/
theorem update_unset_oidc_field_emits_no_reset :
    hasChange c9d.maxAge = true
    ∧ c9d.maxAge.new = none
    ∧ resourceAuthMethodUpdate c9d uv0 none = ([], .ok c9d) := ⟨rfl, rfl, rfl⟩

theorem isReset_false_of_mem_setSeg {α : Type} (c : Bool) (v : Option α)
    (mk : α → AMOption) (o : AMOption)
    (ho : o ∈ if c then optIfSet v mk else [])
    (hmk : ∀ x, isResetOpt (mk x) = false) : isResetOpt o = false := by
  split at ho
  · cases v with
    | none => simp [optIfSet] at ho
    | some x =>
      simp [optIfSet] at ho
      subst ho
      exact hmk x
  · simp at ho

/-- C9 amended: for `name`, `description` and the two password length fields,
a change always emits the reset-to-default marker, plus a set option when a
desired value is present; the OIDC branch never emits any reset-to-default
marker — each OIDC field only yields a set option when present, so an OIDC
field that became unset contributes no option at all. -/
theorem update_reset_markers_by_field :
    (∀ d : UpdateData, hasChange d.name = true →
      AMOption.defaultName ∈ updateCommonOpts d)
    ∧ (∀ (d : UpdateData) v, hasChange d.name = true → d.name.new = some v →
      AMOption.withName v ∈ updateCommonOpts d)
    ∧ (∀ d : UpdateData, hasChange d.description = true →
      AMOption.defaultDescription ∈ updateCommonOpts d)
    ∧ (∀ (d : UpdateData) v, hasChange d.description = true →
      d.description.new = some v →
      AMOption.withDescription v ∈ updateCommonOpts d)
    ∧ (∀ d : UpdateData, hasChange d.minLoginNameLength = true →
      AMOption.defaultPasswordAuthMethodMinLoginNameLength ∈ updatePasswordOpts d)
    ∧ (∀ (d : UpdateData) n, hasChange d.minLoginNameLength = true →
      d.minLoginNameLength.new = some n →
      AMOption.withPasswordAuthMethodMinLoginNameLength n ∈ updatePasswordOpts d)
    ∧ (∀ d : UpdateData, hasChange d.minPasswordLength = true →
      AMOption.defaultPasswordAuthMethodMinPasswordLength ∈ updatePasswordOpts d)
    ∧ (∀ (d : UpdateData) n, hasChange d.minPasswordLength = true →
      d.minPasswordLength.new = some n →
      AMOption.withPasswordAuthMethodMinPasswordLength n ∈ updatePasswordOpts d)
    ∧ (∀ (d : UpdateData) (o : AMOption), o ∈ updateOidcOpts d →
      isResetOpt o = false) := by
  refine ⟨fun d h => ?_, fun d v h hv => ?_, fun d h => ?_, fun d v h hv => ?_,
    fun d h => ?_, fun d n h hn => ?_, fun d h => ?_, fun d n h hn => ?_,
    fun d o ho => ?_⟩
  · simp [updateCommonOpts, h]
  · simp [updateCommonOpts, h, hv, optIfSet]
  · simp [updateCommonOpts, h]
  · simp [updateCommonOpts, h, hv, optIfSet]
  · simp [updatePasswordOpts, h]
  · simp [updatePasswordOpts, h, hn, optIfSet]
  · simp [updatePasswordOpts, h]
  · simp [updatePasswordOpts, h, hn, optIfSet]
  · simp only [updateOidcOpts, List.mem_append] at ho
    rcases ho with ((((((((ho | ho) | ho) | ho) | ho) | ho) | ho) | ho) | ho) | ho
    · exact isReset_false_of_mem_setSeg _ _ _ o ho (fun x => rfl)
    · exact isReset_false_of_mem_setSeg _ _ _ o ho (fun x => rfl)
    · exact isReset_false_of_mem_setSeg _ _ _ o ho (fun x => rfl)
    · exact isReset_false_of_mem_setSeg _ _ _ o ho (fun x => rfl)
    · exact isReset_false_of_mem_setSeg _ _ _ o ho (fun x => rfl)
    · exact isReset_false_of_mem_setSeg _ _ _ o ho (fun x => rfl)
    · exact isReset_false_of_mem_setSeg _ _ _ o ho (fun x => rfl)
    · exact isReset_false_of_mem_setSeg _ _ _ o ho (fun x => rfl)
    · exact isReset_false_of_mem_setSeg _ _ _ o ho (fun x => rfl)
    · exact isReset_false_of_mem_setSeg _ _ _ o ho (fun x => rfl)

/-- C9 amended witness: reset markers and set options at concrete changed
fields, and reset-freeness of a concrete OIDC option. -/
theorem update_reset_markers_by_field_witness :
    AMOption.defaultName ∈ updateCommonOpts c9w
    ∧ AMOption.withName "b" ∈ updateCommonOpts c9w
    ∧ AMOption.defaultPasswordAuthMethodMinLoginNameLength ∈ updatePasswordOpts c9w
    ∧ AMOption.withPasswordAuthMethodMinLoginNameLength 5 ∈ updatePasswordOpts c9w
    ∧ isResetOpt (AMOption.withOidcAuthMethodMaxAge 60) = false :=
  ⟨update_reset_markers_by_field.1 c9w rfl,
   update_reset_markers_by_field.2.1 c9w "b" rfl rfl,
   update_reset_markers_by_field.2.2.2.2.1 c9w rfl,
   update_reset_markers_by_field.2.2.2.2.2.1 c9w 5 rfl rfl,
   update_reset_markers_by_field.2.2.2.2.2.2.2.2
     { c2d with maxAge := ⟨none, some 60⟩, typ := ⟨some "oidc", some "oidc"⟩ }
     (AMOption.withOidcAuthMethodMaxAge 60) (by decide)⟩

/-- C10: on an OIDC record whose (read-only) client secret HMAC field changed
to a present desired value, the diff emits a set-client-secret option
carrying the HMAC string, and every remote call the update issues carries
that option. -/
theorem update_sends_hmac_as_client_secret (d : UpdateData) (uv : UndefVars)
    (r : Option String) (s : String)
    (htyp : d.typ.new.getD "" = authmethodTypeOidc)
    (hch : hasChange d.clientSecretHmac = true)
    (hnew : d.clientSecretHmac.new = some s) :
    AMOption.withOidcAuthMethodClientSecret s ∈ updateOidcOpts d
    ∧ (resourceAuthMethodUpdate d uv r).1 ≠ []
    ∧ ∀ c ∈ (resourceAuthMethodUpdate d uv r).1,
        AMOption.withOidcAuthMethodClientSecret s ∈ c.opts := by
  have hmem : AMOption.withOidcAuthMethodClientSecret s ∈ updateOidcOpts d := by
    simp [updateOidcOpts, hch, hnew, optIfSet]
  have hopts : updateOpts d = some (updateCommonOpts d ++ updateOidcOpts d) := by
    simp [updateOpts, htyp, authmethodTypePassword, authmethodTypeOidc]
  have hoidcne : updateOidcOpts d ≠ [] := List.ne_nil_of_mem hmem
  have hne : ((updateCommonOpts d ++ updateOidcOpts d).isEmpty) = false := by
    simp [List.isEmpty_iff]
    intro _ h
    exact hoidcne h
  have hfullmem : AMOption.withOidcAuthMethodClientSecret s
      ∈ updateCommonOpts d ++ updateOidcOpts d ++ [AMOption.withAutomaticVersioning true] :=
    List.mem_append_left _ (List.mem_append_right _ hmem)
  have hcalls : (resourceAuthMethodUpdate d uv r).1
      = [⟨d.id, 0, updateCommonOpts d ++ updateOidcOpts d
          ++ [AMOption.withAutomaticVersioning true]⟩] := by
    cases r with
    | none => simp [resourceAuthMethodUpdate, hopts, hne]
    | some m => simp [resourceAuthMethodUpdate, hopts, hne]
  refine ⟨hmem, ?_, ?_⟩
  · rw [hcalls]
    simp
  · rw [hcalls]
    intro c hcm
    simp at hcm
    subst hcm
    simp only [List.append_assoc] at hfullmem
    exact hfullmem

/-- C10 witness: the theorem at a concrete HMAC-changed record. -/
theorem update_sends_hmac_as_client_secret_witness :
    AMOption.withOidcAuthMethodClientSecret "newhmac" ∈ updateOidcOpts c10d
    ∧ (resourceAuthMethodUpdate c10d uv0 none).1 ≠ []
    ∧ ∀ c ∈ (resourceAuthMethodUpdate c10d uv0 none).1,
        AMOption.withOidcAuthMethodClientSecret "newhmac" ∈ c.opts :=
  update_sends_hmac_as_client_secret c10d uv0 none "newhmac" rfl rfl rfl

theorem dropWhile_fixed_of_head (p : Char → Bool) (y : List Char)
    (hyy : List.dropWhile p y = y) :
    List.dropWhile p (List.rdropWhile p y) = List.rdropWhile p y := by
  cases y with
  | nil => simp [List.rdropWhile]
  | cons a t =>
    have ha : p a = false := by
      cases hpa : p a with
      | false => rfl
      | true =>
        rw [List.dropWhile_cons_of_pos hpa] at hyy
        have hsuf : List.dropWhile p t <:+ t := List.dropWhile_suffix p
        have hlen := hsuf.length_le
        rw [hyy] at hlen
        simp only [List.length_cons] at hlen
        omega
    obtain ⟨u, hu⟩ := List.rdropWhile_prefix p (a :: t)
    cases hzc : List.rdropWhile p (a :: t) with
    | nil => simp
    | cons b w =>
      rw [hzc] at hu
      have hb : b = a := by
        have h2 := congrArg List.head? hu
        simpa using h2
      exact List.dropWhile_cons_of_neg (by rw [hb]; simp [ha])

theorem trimSpace_idem (s : String) : trimSpace (trimSpace s) = trimSpace s := by
  have h1 := dropWhile_fixed_of_head isSpaceChar (List.dropWhile isSpaceChar s.data)
    (List.dropWhile_idempotent isSpaceChar s.data)
  show (⟨List.rdropWhile isSpaceChar (List.dropWhile isSpaceChar
      (List.rdropWhile isSpaceChar (List.dropWhile isSpaceChar s.data)))⟩ : String)
    = ⟨List.rdropWhile isSpaceChar (List.dropWhile isSpaceChar s.data)⟩
  rw [h1, List.rdropWhile_idempotent]

theorem strsOf_map_s (l : List String) : strsOf (l.map JVal.s) = .ok l := by
  induction l with
  | nil => rfl
  | cons x xs ih => simp [strsOf, ih]

theorem assertNum_panic (v : Option JVal) (h : v.bind toNumOpt = none) :
    assertNum v = .error .panicked := by
  cases v with
  | none => rfl
  | some w => cases w <;> simp_all [toNumOpt, assertNum]

theorem assertStr_panic (v : Option JVal) (h : v.bind toStrOpt = none) :
    assertStr v = .error .panicked := by
  cases v with
  | none => rfl
  | some w => cases w <;> simp_all [toStrOpt, assertStr]

/-- C7 counterexample: a password-variant response whose required numeric
field `min_login_name_length` arrives as a string makes the decode step
panic (an unchecked Go type assertion, i.e. a crash) — it does not return a
`MalformedResponse`-style error value, so decode is not total on arbitrary
response maps. -/
theorem decode_type_mismatch_panics_counterexample :
    setFromAuthMethodResponseMap emptyAMState
      [(TypeKey, JVal.s authmethodTypePassword),
       ("attributes", JVal.obj
         [(authmethodMinLoginNameLengthKey, JVal.s "three"),
          (authmethodMinPasswordLengthKey, JVal.n 8)]),
       (IDKey, JVal.s "ampw_crash")]
      = .error .panicked := rfl

/-- C7 amended: when a required field's reported type does not match (here:
the password variant's `min_login_name_length` not numeric, or the OIDC
variant's `state` not a string), the decode step panics via an unchecked
type assertion instead of returning a structured malformed-response error. -/
theorem decode_type_mismatch_panics (s0 : AMState) (raw : RawMap)
    (attrs : List (String × JVal)) :
    (List.lookup TypeKey raw = some (.s authmethodTypePassword) →
     List.lookup "attributes" raw = some (.obj attrs) →
     (List.lookup authmethodMinLoginNameLengthKey attrs).bind toNumOpt = none →
     setFromAuthMethodResponseMap s0 raw = .error .panicked)
    ∧ (List.lookup TypeKey raw = some (.s authmethodTypeOidc) →
       List.lookup "attributes" raw = some (.obj attrs) →
       (List.lookup authmethodOidcStateKey attrs).bind toStrOpt = none →
       setFromAuthMethodResponseMap s0 raw = .error .panicked) := by
  constructor
  · intro h1 h2 h3
    simp [setFromAuthMethodResponseMap, h1, h2, assertStr, decodePasswordAttrs,
      assertNum_panic _ h3, authmethodTypePassword, authmethodTypeOidc]
  · intro h1 h2 h3
    have hx : assertStr (List.lookup authmethodOidcStateKey attrs)
        = .error .panicked := assertStr_panic _ h3
    have ht : assertStr (List.lookup TypeKey raw) = .ok authmethodTypeOidc := by
      rw [h1]; rfl
    simp [setFromAuthMethodResponseMap, ht, h2, decodeOidcAttrs, hx,
      authmethodTypePassword, authmethodTypeOidc]

/-- C7 amended witness: an OIDC response whose `state` field is numeric makes
decode panic. -/
theorem decode_type_mismatch_panics_witness :
    setFromAuthMethodResponseMap emptyAMState
      [(TypeKey, JVal.s authmethodTypeOidc),
       ("attributes", JVal.obj [(authmethodOidcStateKey, JVal.n 1)]),
       (IDKey, JVal.s "amoidc_crash")]
      = .error .panicked :=
  (decode_type_mismatch_panics emptyAMState
    [(TypeKey, JVal.s authmethodTypeOidc),
     ("attributes", JVal.obj [(authmethodOidcStateKey, JVal.n 1)]),
     (IDKey, JVal.s "amoidc_crash")]
    [(authmethodOidcStateKey, JVal.n 1)]).2 rfl rfl rfl

theorem decode_mkOidcRaw (s0 : AMState) (nm ds sc : JVal)
    (st iss cid hmac : String) (certs auds : List String) (ma : Int)
    (idv : String) :
    setFromAuthMethodResponseMap s0
      (mkOidcRaw nm ds sc st iss cid hmac certs auds ma idv)
    = .ok { s0 with
        name := some nm, description := some ds, scopeId := some sc,
        typ := some (.s authmethodTypeOidc), id := idv,
        oidcState := some st, oidcIssuer := some iss, oidcClientId := some cid,
        oidcClientSecretHmac := some hmac,
        oidcCaCerts := some (certs.map trimSpace),
        oidcAllowedAudiences := some (auds.map trimSpace),
        oidcMaxAge := some ma } := by
  simp [mkOidcRaw, setFromAuthMethodResponseMap, decodeOidcAttrs,
    decodeOidcSometimes, decodeOptStrField, assertStr, assertNum,
    assertStrList, strsOf_map_s, List.lookup, NameKey, DescriptionKey,
    ScopeIdKey, TypeKey, IDKey, authmethodTypePassword, authmethodTypeOidc,
    authmethodOidcStateKey, authmethodOidcIssuerKey, authmethodOidcClientIdKey,
    authmethodOidcClientSecretHmacKey, authmethodOidcCaCertificatesKey,
    authmethodOidcAllowedAudiencesKey, authmethodOidcMaxAgeKey,
    authmethodOidcApiUrlPrefixKey, authmethodOidcCallbackUrlKey,
    authmethodOidcDisableDiscoveredConfigValidationKey,
    authmethodOidcSigningAlgorithmsKey, authmethodMinLoginNameLengthKey,
    authmethodMinPasswordLengthKey]

/-- C8: per-element whitespace trimming of the certificate and audience
lists — (1) the trimming is idempotent on any string list, so re-encoding a
decoded value is a no-op; (2) decode trims every element of both
`caCertificates` and `allowedAudiences`; (3) encode trims every
`caCertificates` element before emission; (4) concretely, encoding
certificates `[" A ", "B"]` emits `["A", "B"]`, and (5) decoding a remote
echo of `["A\n", "B"]` yields local state `["A", "B"]`. -/
theorem trimming_codec_roundtrip :
    (∀ l : List String, (l.map trimSpace).map trimSpace = l.map trimSpace)
    ∧ (∀ (s0 : AMState) (nm ds sc : JVal) (st iss cid hmac : String)
        (certs auds : List String) (ma : Int) (idv : String), ∃ s1 : AMState,
        setFromAuthMethodResponseMap s0
          (mkOidcRaw nm ds sc st iss cid hmac certs auds ma idv) = .ok s1
        ∧ s1.oidcCaCerts = some (certs.map trimSpace)
        ∧ s1.oidcAllowedAudiences = some (auds.map trimSpace))
    ∧ (∀ (d : CreateData) (certs : List String),
        AMOption.withOidcAuthMethodIdpCaCerts (certs.map trimSpace)
          ∈ createOidcOpts { d with caCerts := some certs })
    ∧ (AMOption.withOidcAuthMethodIdpCaCerts ["A", "B"]
        ∈ createOidcOpts { emptyCreateData with caCerts := some [" A ", "B"] })
    ∧ (∃ s1 : AMState, setFromAuthMethodResponseMap emptyAMState
          (mkOidcRaw .nullv .nullv .nullv "st" "iss" "cid" "hm" ["A\n", "B"] []
            0 "amoidc_echo") = .ok s1
        ∧ s1.oidcCaCerts = some ["A", "B"]) := by
  refine ⟨?_, ?_, ?_, ?_, ?_⟩
  · intro l
    induction l with
    | nil => rfl
    | cons x xs ih => simp [ih, trimSpace_idem]
  · intro s0 nm ds sc st iss cid hmac certs auds ma idv
    exact ⟨_, decode_mkOidcRaw s0 nm ds sc st iss cid hmac certs auds ma idv,
      rfl, rfl⟩
  · intro d certs
    simp [createOidcOpts, optIfSet]
  · simp [createOidcOpts, optIfSet, emptyCreateData]
    decide
  · exact ⟨_, decode_mkOidcRaw emptyAMState .nullv .nullv .nullv "st" "iss"
      "cid" "hm" ["A\n", "B"] [] 0 "amoidc_echo", by decide⟩

end AuthMethod
